import Mathlib

/-!
# Verification of the fluent-ai real-time translation pipeline

Shallow embedding of the core pipeline code and proofs of the specified
properties.  Each section embeds one Python module:

* `src/audio_capture_thread.py` — `VADProcessor`, `AudioCaptureThread`
  (circular buffer, per-frame VAD state machine, utterance accumulation,
  bounded enqueue into the ASR queue).
* `src/fluentai/asr_translation_synthesis_thread.py` — the worker's
  peak normalization of synthesized audio.
* `src/fluentai/model_loader.py` — `LazyModelLoader` cache insertion and
  batch pre-loading.
* `src/fluentai/blackhole_reproduction_thread.py` — `JitterBuffer`.
* `src/main_whisper.py` — `transcribe_long_audio`.

Machine integers are modelled as `Int`/`Nat`; audio sample values as `Int`
(int16 contents) or `ℚ` (float contents).  IEEE float division is modelled
by `Option ℚ`, where `none` stands for a non-real result (NaN/±Inf) as
produced by a division by zero; all other float arithmetic appearing here
is exact at the values we reason about.  Wall-clock times (`time.time()`)
are passed explicitly as `ℚ` arguments.  External effects (the WebRTC VAD
voice classification, the ASR/MT/TTS engines, model-load outcomes) are
oracles passed in as function or Boolean arguments.
-/

namespace FluentAI

/-! ## VAD segmenter (`VADProcessor` in `src/audio_capture_thread.py`) -/

/-- Configuration of `VADProcessor.__init__`. -/
structure VADConfig where
  sample_rate : ℕ := 16000
  frame_duration : ℕ := 30
  aggressiveness : ℕ := 2
  voice_threshold_ms : ℕ := 200
  silence_threshold_ms : ℕ := 400
deriving DecidableEq, Repr

/-- `self.frame_size = int(sample_rate * frame_duration / 1000)`. -/
def VADConfig.frame_size (c : VADConfig) : ℕ :=
  c.sample_rate * c.frame_duration / 1000

/-- `self.voice_frames_threshold = int(voice_threshold_ms / frame_duration)`. -/
def VADConfig.voice_frames_threshold (c : VADConfig) : ℕ :=
  c.voice_threshold_ms / c.frame_duration

/-- `self.silence_frames_threshold = int(silence_threshold_ms / frame_duration)`. -/
def VADConfig.silence_frames_threshold (c : VADConfig) : ℕ :=
  c.silence_threshold_ms / c.frame_duration

/-- Mutable state of `VADProcessor` (`__init__` lines 133–136). -/
structure VADState where
  consecutive_voice_frames : ℕ
  consecutive_silence_frames : ℕ
  is_recording : Bool
  recording_start_time : Option ℚ
deriving DecidableEq, Repr

/-- State right after `VADProcessor.__init__`. -/
def VADState.init : VADState :=
  { consecutive_voice_frames := 0
    consecutive_silence_frames := 0
    is_recording := false
    recording_start_time := none }

/-- `VADProcessor.reset_state`: identical assignments to `__init__`. -/
def VADState.reset (_ : VADState) : VADState := VADState.init

/-- The result dictionary built by `process_frame` on the non-error path.
`is_recording`, `consecutive_voice_frames` and `consecutive_silence_frames`
are snapshots taken *before* any state update, exactly as the dict is
populated before the `if is_voice:` branch. -/
structure VADDecision where
  is_voice : Bool
  is_recording : Bool
  should_start_recording : Bool
  should_stop_recording : Bool
  consecutive_voice_frames : ℕ
  consecutive_silence_frames : ℕ
  recording_duration : Option ℚ
  timestamp : ℚ
deriving DecidableEq, Repr

/-- `process_frame`'s return value: either the early
`{"error": "frame_size_mismatch"}` dict or the full decision dict. -/
inductive VADResult where
  | error : VADResult
  | ok : VADDecision → VADResult
deriving DecidableEq, Repr

/-- `VADProcessor.process_frame` (lines 146–199).  The frame's contents are
abstracted to its length (`frameLen`) and the WebRTC classifier's verdict
(`isVoice`, the value of `self.vad.is_speech(...)`); `now` is the value of
`time.time()` during this call.  Returns the updated state together with
the returned dictionary. -/
def processFrame (cfg : VADConfig) (st : VADState) (frameLen : ℕ)
    (isVoice : Bool) (now : ℚ) : VADState × VADResult :=
  if frameLen ≠ cfg.frame_size then
    (st, .error)
  else
    let base : VADDecision :=
      { is_voice := isVoice
        is_recording := st.is_recording
        should_start_recording := false
        should_stop_recording := false
        consecutive_voice_frames := st.consecutive_voice_frames
        consecutive_silence_frames := st.consecutive_silence_frames
        recording_duration := none
        timestamp := now }
    if isVoice then
      let v := st.consecutive_voice_frames + 1
      let st1 := { st with consecutive_voice_frames := v
                           consecutive_silence_frames := 0 }
      if st.is_recording = false ∧ cfg.voice_frames_threshold ≤ v then
        ({ st1 with is_recording := true, recording_start_time := some now },
         .ok { base with should_start_recording := true })
      else
        (st1, .ok base)
    else
      let s := st.consecutive_silence_frames + 1
      let st1 := { st with consecutive_silence_frames := s
                           consecutive_voice_frames := 0 }
      if st.is_recording = true ∧ cfg.silence_frames_threshold ≤ s then
        let dur : ℚ := match st.recording_start_time with
          | some t0 => now - t0
          | none => 0
        ({ st1 with is_recording := false },
         .ok { base with should_stop_recording := true
                         recording_duration := some dur })
      else
        (st1, .ok base)

/-! ## Capture stage (`AudioCaptureThread` in `src/audio_capture_thread.py`) -/

/-- The `self.stats` dictionary of `AudioCaptureThread`. -/
structure CaptureStats where
  total_frames : ℕ
  voice_frames : ℕ
  recordings_created : ℕ
  queue_timeouts : ℕ
  processing_errors : ℕ
deriving DecidableEq, Repr

def CaptureStats.init : CaptureStats :=
  { total_frames := 0, voice_frames := 0, recordings_created := 0
    queue_timeouts := 0, processing_errors := 0 }

/-- `_create_wav_bytes`: a complete WAV container around the int16 payload
(`setnchannels(channels)`, `setsampwidth(2)`, `setframerate(sample_rate)`,
`writeframes(audio.astype(int16))`).  The bytes are modelled structurally;
the encode never fails in this model (the `except` branch covers I/O
errors only), and the result is always non-empty (a WAV header is). -/
structure WavBytes where
  nchannels : ℕ
  sampwidth : ℕ
  framerate : ℕ
  frames : List ℤ
deriving DecidableEq, Repr

/-- The `recording_info` dict built in `_stop_recording` (lines 400–407). -/
structure RecordingInfo where
  wav_data : WavBytes
  sample_rate : ℕ
  channels : ℕ
  duration : ℚ
  timestamp : Option ℚ
  samples : ℕ
deriving DecidableEq, Repr

/-- `queue.Queue.put(item, timeout=t)` on a bounded queue: the put succeeds
iff the queue is below capacity within the timeout window; in this model a
full queue stays full for the whole bounded wait, so success is decided by
the current depth.  The timeout argument is carried to record the bound
passed by the caller. -/
def tryPut {α : Type} (q : List α) (capacity : ℕ) (_timeout : ℚ) (x : α) :
    List α × Bool :=
  if q.length < capacity then (q ++ [x], true) else (q, false)

/-- State of `AudioCaptureThread` relevant to the capture algorithm:
configuration fields, the VAD state, the in-progress accumulator
(`self.current_recording`, a Python list of int16 samples or `None`), the
recording start time, the statistics counters and the downstream ASR
queue (contents plus its fixed capacity). -/
structure CaptureState where
  sample_rate : ℕ
  channels : ℕ
  max_blocking_ms : ℕ
  vad_cfg : VADConfig
  vad : VADState
  current_recording : Option (List ℤ)
  recording_start_time : Option ℚ
  stats : CaptureStats
  asr_queue : List RecordingInfo
  queue_capacity : ℕ
deriving DecidableEq, Repr

/-- Default of the `max_blocking_ms` parameter of
`AudioCaptureThread.__init__`. -/
def defaultMaxBlockingMs : ℕ := 50

/-- `timeout_seconds = self.max_blocking_ms / 1000.0` (line 410). -/
def timeoutSeconds (max_blocking_ms : ℕ) : ℚ := (max_blocking_ms : ℚ) / 1000

/-- `int(self.sample_rate * 0.2)`: the number of pre-roll samples requested
from the circular buffer by `_start_recording` via
`get_duration_samples(0.2)`. -/
def preRollNumSamples (sample_rate : ℕ) : ℕ := sample_rate * 2 / 10

/-- `CircularAudioBuffer.get_samples(n)`: the most recent `n` samples, or
all of them when fewer are available. -/
def lastSamples {α : Type} (n : ℕ) (ring : List α) : List α :=
  ring.drop (ring.length - n)

/-- `recording_info` as assembled by `_stop_recording` from the closed
accumulator `rec`. -/
def mkRecordingInfo (st : CaptureState) (rec : List ℤ) : RecordingInfo :=
  { wav_data := { nchannels := st.channels, sampwidth := 2
                  framerate := st.sample_rate, frames := rec }
    sample_rate := st.sample_rate
    channels := st.channels
    duration := (rec.length : ℚ) / (st.sample_rate : ℚ)
    timestamp := st.recording_start_time
    samples := rec.length }

/-- `AudioCaptureThread._start_recording` (lines 371–383): copy the last
200 ms from the circular buffer (`ring` is its current contents) into a
fresh accumulator and mark the start time `now`. -/
def startRecording (ring : List ℤ) (st : CaptureState) (now : ℚ) :
    CaptureState :=
  { st with
    current_recording :=
      some (lastSamples (preRollNumSamples st.sample_rate) ring)
    recording_start_time := some now }

/-- `AudioCaptureThread._stop_recording` (lines 385–454): wrap the closed
accumulator in a `recording_info` and put it on the ASR queue with a
timeout of `max_blocking_ms / 1000` seconds; on `queue.Full` drop it and
bump `queue_timeouts`, on success bump `recordings_created`.  Either way
the accumulator and start time are cleared (the `finally` block).  Called
with no active recording, it only logs and returns. -/
def stopRecording (st : CaptureState) : CaptureState :=
  match st.current_recording with
  | none => st
  | some rec =>
    let info := mkRecordingInfo st rec
    let res := tryPut st.asr_queue st.queue_capacity
      (timeoutSeconds st.max_blocking_ms) info
    if res.2 then
      { st with
        asr_queue := res.1
        stats := { st.stats with
                   recordings_created := st.stats.recordings_created + 1 }
        current_recording := none
        recording_start_time := none }
    else
      { st with
        stats := { st.stats with
                   queue_timeouts := st.stats.queue_timeouts + 1 }
        current_recording := none
        recording_start_time := none }

/-- One VAD-sized frame as handled by the `_audio_callback` loop: its int16
samples and the WebRTC classifier's verdict on it. -/
structure Frame where
  samples : List ℤ
  isVoice : Bool
deriving DecidableEq, Repr

/-- One iteration of the per-frame loop in `_audio_callback` (lines
339–365): run the VAD, skip the frame on a size error, update the frame
counters, dispatch `_start_recording` / `_stop_recording` on the decision,
and finally append the frame to the accumulator when one is active.
`ring` is the circular buffer's contents in scope for this callback (the
whole callback block was added before the loop) and `now` the current
wall-clock time. -/
def callbackFrameStep (ring : List ℤ) (st : CaptureState) (f : Frame)
    (now : ℚ) : CaptureState :=
  let pr := processFrame st.vad_cfg st.vad f.samples.length f.isVoice now
  let st := { st with vad := pr.1 }
  match pr.2 with
  | .error => st
  | .ok d =>
    let st := { st with stats :=
      { st.stats with
        total_frames := st.stats.total_frames + 1
        voice_frames := st.stats.voice_frames + (if d.is_voice then 1 else 0) } }
    let st :=
      if d.should_start_recording then startRecording ring st now
      else if d.should_stop_recording then stopRecording st
      else st
    match st.current_recording with
    | some cur => { st with current_recording := some (cur ++ f.samples) }
    | none => st

/-- The per-frame loop over a sequence of frames, each processed at its
own wall-clock time. -/
def runFrames (ring : List ℤ) (st : CaptureState)
    (frames : List (Frame × ℚ)) : CaptureState :=
  frames.foldl (fun s p => callbackFrameStep ring s p.1 p.2) st

/-! ## Worker normalization
(`ASRTranslationSynthesisThread.run` in
`src/fluentai/asr_translation_synthesis_thread.py`, lines 176–191) -/

/-- `np.max(np.abs(xs))` over the decoded samples, as a rational.  Only
used under the guard `len(audio_fp) > 0`, where the fold with initial
value `0` agrees with numpy's maximum of the (non-negative) absolute
values. -/
def maxAbs (xs : List ℚ) : ℚ := xs.foldl (fun m x => max m |x|) 0

/-- IEEE float division as far as this code exercises it: a zero divisor
yields a non-real result (`0/0 = NaN`, `x/0 = ±Inf`), modelled as `none`;
otherwise the exact quotient. -/
def ieeeDiv (x y : ℚ) : Option ℚ := if y = 0 then none else some (x / y)

/-- The normalization applied to the decoded TTS audio before it is put on
the output queue D2: `audio_fp = np.array(samples, dtype=float32)`; then
`if len(audio_fp) > 0: audio_fp = audio_fp / np.max(np.abs(audio_fp))`.
`audio` is the integer sample array returned by
`AudioSegment.get_array_of_samples()` after the 44.1 kHz mono conversion;
the result is the chunk enqueued into D2, sample by sample. -/
def normalizeChunk (audio : List ℤ) : List (Option ℚ) :=
  if 0 < audio.length then
    let m := maxAbs (audio.map (fun x => (x : ℚ)))
    audio.map (fun x => ieeeDiv (x : ℚ) m)
  else
    audio.map (fun x => some (x : ℚ))

/-! ## Model cache (`LazyModelLoader` in `src/fluentai/model_loader.py`) -/

/-- The `TRANSLATION_MODELS` class attribute: supported (src, tgt) pairs
and their Hugging Face model ids, in declaration order. -/
def TRANSLATION_MODELS : List ((String × String) × String) :=
  [(("es", "en"), "Helsinki-NLP/opus-mt-es-en"),
   (("en", "es"), "Helsinki-NLP/opus-mt-en-es"),
   (("es", "de"), "Helsinki-NLP/opus-mt-es-de"),
   (("de", "es"), "Helsinki-NLP/opus-mt-de-es"),
   (("es", "fr"), "Helsinki-NLP/opus-mt-es-fr"),
   (("fr", "es"), "Helsinki-NLP/opus-mt-fr-es"),
   (("en", "de"), "Helsinki-NLP/opus-mt-en-de"),
   (("de", "en"), "Helsinki-NLP/opus-mt-de-en"),
   (("en", "fr"), "Helsinki-NLP/opus-mt-en-fr"),
   (("fr", "en"), "Helsinki-NLP/opus-mt-fr-en")]

/-- `(src, tgt) in self.TRANSLATION_MODELS`. -/
def isSupportedPair (p : String × String) : Bool :=
  TRANSLATION_MODELS.any (fun e => e.1 == p)

/-- Default of the `max_cache_size` parameter of
`LazyModelLoader.__init__`. -/
def defaultMaxCacheSize : ℕ := 128

/-- Python dict assignment `d[k] = v` on an insertion-ordered dict
represented as an association list: replace in place when the key exists,
append otherwise. -/
def dictSet {α : Type} (cache : List ((String × String) × α))
    (k : String × String) (v : α) : List ((String × String) × α) :=
  if cache.any (fun e => e.1 == k) then
    cache.map (fun e => if e.1 == k then (k, v) else e)
  else
    cache ++ [(k, v)]

/-- `LazyModelLoader._cache_translation_model` (lines 212–231): when the
cache has reached `max_cache_size` entries, pop `next(iter(dict))` — the
*first-inserted* surviving key — then store the new model.  The cache is
`self._translation_models`, an insertion-ordered dict. -/
def cacheTranslationModel {α : Type} (cache : List ((String × String) × α))
    (maxSize : ℕ) (k : String × String) (m : α) :
    List ((String × String) × α) :=
  let cache1 := if maxSize ≤ cache.length then cache.tail else cache
  dictSet cache1 k m

/-- The cache-hit read path of `LazyModelLoader.get_model` (lines
117–120): `if model_key in self._translation_models: return ...`.  It
performs no mutation — in particular no recency update. -/
def getModelCached {α : Type} (cache : List ((String × String) × α))
    (p : String × String) : Option α :=
  (cache.find? (fun e => e.1 == p)).map (fun e => e.2)

/-- The pair-generation loop of `load_all_for_languages` (lines 326–330):
`for src in lang_list: for tgt in lang_list:` keeping the pairs with
`src != tgt` that have a configured model, in loop order. -/
def pairsToLoad (langs : List String) : List (String × String) :=
  langs.flatMap (fun src =>
    langs.filterMap (fun tgt =>
      if src ≠ tgt ∧ isSupportedPair (src, tgt) then some (src, tgt)
      else none))

/-- The key format of the results dict: `f"{src}->{tgt}"`. -/
def pairKey (p : String × String) : String := p.1 ++ "->" ++ p.2

/-- `LazyModelLoader.load_all_for_languages` (lines 310–360): load each
generated pair in sequence and record per-pair success.  The outcome of
`_load_translation_model` for a pair (a loaded model versus `None` or an
exception) is the oracle `loadOk`; each pair's entry is recorded from its
own outcome alone, so one failure does not abort the remaining loads. -/
def loadAllForLanguages (loadOk : String × String → Bool)
    (langs : List String) : List (String × Bool) :=
  (pairsToLoad langs).map (fun p => (pairKey p, loadOk p))

/-! ## Jitter buffer (`JitterBuffer` in
`src/fluentai/blackhole_reproduction_thread.py`) -/

/-- The operations a playback session performs on the jitter buffer:
`add_chunk` (push), `get_next_chunk` (pop, from the playback loop's
`queue.Empty` branch) and `flush` (drain-and-discard, called by
`BlackHoleReproductionThread.stop`). -/
inductive JOp where
  | push : List ℚ → JOp
  | pop : JOp
  | flush : JOp
deriving DecidableEq, Repr

/-- One jitter-buffer operation over the internal FIFO of chunks: returns
the new contents and the chunks removed by this operation.
`get_next_chunk` returns `np.array([])` without removing anything when
the buffer is empty; `flush` pops every chunk. -/
def jitterStep (chunks : List (List ℚ)) : JOp → List (List ℚ) × List (List ℚ)
  | .push c => (chunks ++ [c], [])
  | .pop =>
    match chunks with
    | [] => ([], [])
    | c :: rest => (rest, [c])
  | .flush => ([], chunks)

/-- Run a session: fold the operations over the buffer, accumulating every
chunk that left the buffer. -/
def jitterRun (chunks : List (List ℚ)) : List JOp → List (List ℚ) × List (List ℚ)
  | [] => (chunks, [])
  | op :: ops =>
    let s := jitterStep chunks op
    let r := jitterRun s.1 ops
    (r.1, s.2 ++ r.2)

/-- Samples carried into the buffer by one operation. -/
def opSamples : JOp → ℕ
  | .push c => c.length
  | _ => 0

/-- Total samples pushed by a session's operations. -/
def samplesIn (ops : List JOp) : ℕ := (ops.map opSamples).sum

/-- Total samples in a list of chunks. -/
def totalSamples (chunks : List (List ℚ)) : ℕ :=
  (chunks.map List.length).sum

/-! ## Long-audio transcription (`transcribe_long_audio` in
`src/main_whisper.py`, lines 136–216) -/

/-- An ASR engine result as used by `transcribe_long_audio`: the `text`
and `language` fields of `model.transcribe(...)`. -/
structure TranscribeResult where
  text : String
  language : String
deriving DecidableEq, Repr

/-- The chunk loop `for i in range(0, len(audio), chunk_size):
chunk = audio[i:i+chunk_size]`, by fuel on the list length. -/
def chunksOfAux {α : Type} (n : ℕ) : ℕ → List α → List (List α)
  | 0, _ => []
  | _, [] => []
  | fuel + 1, l => l.take n :: chunksOfAux n fuel (l.drop n)

def chunksOf {α : Type} (n : ℕ) (l : List α) : List (List α) :=
  chunksOfAux n l.length l

/-- Default of the `chunk_length` parameter (seconds). -/
def defaultChunkLength : ℕ := 30

/-- The sample rate requested from `librosa.load(audio_file, sr=16000)`. -/
def librosaSampleRate : ℕ := 16000

/-- `transcribe_long_audio(audio_file, model, chunk_length)`.  `asr` is
the Whisper engine (`model.transcribe` as a function of the audio it is
given); `audio` the loaded samples; `sr` the sample rate returned by
`librosa.load` (16000 in every run).  Short audio
(`len(audio)/sr <= chunk_length`) is transcribed whole.  Long audio is cut
into consecutive `chunk_length*sr`-sample chunks, each transcribed, the
texts joined with `" "` and stripped; the `language` field comes from a
*separate* transcription of the whole file (`model.transcribe(audio_file,
language=None)`), modelled on its success path — on an exception it would
default to `"es"`. -/
def transcribeLongAudio (asr : List ℤ → TranscribeResult) (audio : List ℤ)
    (sr : ℕ) (chunkLength : ℕ) : TranscribeResult :=
  if audio.length ≤ chunkLength * sr then
    asr audio
  else
    let chunkSize := chunkLength * sr
    let texts := (chunksOf chunkSize audio).map (fun c => (asr c).text)
    { text := (String.intercalate " " texts).trim
      language := (asr audio).language }

/-! ## Theorems -/

/-! Branch equations for `processFrame` on a correctly-sized frame. -/

theorem processFrame_voice_start (cfg : VADConfig) (st : VADState) (now : ℚ)
    (h1 : st.is_recording = false)
    (h2 : cfg.voice_frames_threshold ≤ st.consecutive_voice_frames + 1) :
    processFrame cfg st cfg.frame_size true now =
      ({ st with consecutive_voice_frames := st.consecutive_voice_frames + 1
                 consecutive_silence_frames := 0
                 is_recording := true
                 recording_start_time := some now },
       .ok { is_voice := true, is_recording := st.is_recording,
             should_start_recording := true, should_stop_recording := false,
             consecutive_voice_frames := st.consecutive_voice_frames,
             consecutive_silence_frames := st.consecutive_silence_frames,
             recording_duration := none,
             timestamp := now }) := by
  simp [processFrame, h1, h2]

theorem processFrame_voice_cont (cfg : VADConfig) (st : VADState) (now : ℚ)
    (h : ¬(st.is_recording = false ∧
        cfg.voice_frames_threshold ≤ st.consecutive_voice_frames + 1)) :
    processFrame cfg st cfg.frame_size true now =
      ({ st with consecutive_voice_frames := st.consecutive_voice_frames + 1
                 consecutive_silence_frames := 0 },
       .ok { is_voice := true, is_recording := st.is_recording,
             should_start_recording := false, should_stop_recording := false,
             consecutive_voice_frames := st.consecutive_voice_frames,
             consecutive_silence_frames := st.consecutive_silence_frames,
             recording_duration := none,
             timestamp := now }) := by
  simp only [processFrame, ne_eq, not_true_eq_false, if_false, if_true,
    if_neg h]

theorem processFrame_silence_stop (cfg : VADConfig) (st : VADState) (now : ℚ)
    (h1 : st.is_recording = true)
    (h2 : cfg.silence_frames_threshold ≤ st.consecutive_silence_frames + 1) :
    processFrame cfg st cfg.frame_size false now =
      ({ st with consecutive_voice_frames := 0
                 consecutive_silence_frames := st.consecutive_silence_frames + 1
                 is_recording := false },
       .ok { is_voice := false, is_recording := st.is_recording,
             should_start_recording := false, should_stop_recording := true,
             consecutive_voice_frames := st.consecutive_voice_frames,
             consecutive_silence_frames := st.consecutive_silence_frames,
             recording_duration := some (match st.recording_start_time with
               | some t0 => now - t0
               | none => 0),
             timestamp := now }) := by
  simp [processFrame, h1, h2]

theorem processFrame_silence_cont (cfg : VADConfig) (st : VADState) (now : ℚ)
    (h : ¬(st.is_recording = true ∧
        cfg.silence_frames_threshold ≤ st.consecutive_silence_frames + 1)) :
    processFrame cfg st cfg.frame_size false now =
      ({ st with consecutive_voice_frames := 0
                 consecutive_silence_frames := st.consecutive_silence_frames + 1 },
       .ok { is_voice := false, is_recording := st.is_recording,
             should_start_recording := false, should_stop_recording := false,
             consecutive_voice_frames := st.consecutive_voice_frames,
             consecutive_silence_frames := st.consecutive_silence_frames,
             recording_duration := none,
             timestamp := now }) := by
  simp only [processFrame, ne_eq, not_true_eq_false, if_false, Bool.false_eq_true,
    if_neg h]

/-- **C3.** For every correctly-sized frame given to the VAD segmenter: a
voice frame increments the consecutive-voice counter and resets the
consecutive-silence counter to zero, and a silence frame does the reverse;
`should_start` is reported exactly when not recording and the incremented
voice count reaches the threshold V, after which the recording flag is
set; `should_stop` is reported exactly when recording and the incremented
silence count reaches the threshold S, after which the recording flag is
cleared and a recording duration is reported. -/
theorem vad_process_frame_state_machine (cfg : VADConfig) (st : VADState)
    (isVoice : Bool) (now : ℚ) :
    ∃ d : VADDecision,
      (processFrame cfg st cfg.frame_size isVoice now).2 = .ok d ∧
      (isVoice = true →
        (processFrame cfg st cfg.frame_size isVoice now).1.consecutive_voice_frames
          = st.consecutive_voice_frames + 1 ∧
        (processFrame cfg st cfg.frame_size isVoice now).1.consecutive_silence_frames
          = 0) ∧
      (isVoice = false →
        (processFrame cfg st cfg.frame_size isVoice now).1.consecutive_silence_frames
          = st.consecutive_silence_frames + 1 ∧
        (processFrame cfg st cfg.frame_size isVoice now).1.consecutive_voice_frames
          = 0) ∧
      (d.should_start_recording = true ↔
        st.is_recording = false ∧ isVoice = true ∧
        cfg.voice_frames_threshold ≤ st.consecutive_voice_frames + 1) ∧
      (d.should_start_recording = true →
        (processFrame cfg st cfg.frame_size isVoice now).1.is_recording = true) ∧
      (d.should_stop_recording = true ↔
        st.is_recording = true ∧ isVoice = false ∧
        cfg.silence_frames_threshold ≤ st.consecutive_silence_frames + 1) ∧
      (d.should_stop_recording = true →
        (processFrame cfg st cfg.frame_size isVoice now).1.is_recording = false ∧
        d.recording_duration.isSome = true) ∧
      (d.should_start_recording = false ∧ d.should_stop_recording = false →
        (processFrame cfg st cfg.frame_size isVoice now).1.is_recording
          = st.is_recording) := by
  cases isVoice with
  | true =>
    by_cases h : st.is_recording = false ∧
        cfg.voice_frames_threshold ≤ st.consecutive_voice_frames + 1
    · rw [processFrame_voice_start cfg st now h.1 h.2]
      exact ⟨_, rfl, by simp, by simp, by simp [h.1, h.2], by simp,
        by simp [h.1], by simp, by simp⟩
    · rw [processFrame_voice_cont cfg st now h]
      refine ⟨_, rfl, by simp, by simp, ?_, by simp, by simp, by simp, by simp⟩
      simp only [Bool.false_eq_true, false_iff]
      intro hc
      exact h ⟨hc.1, hc.2.2⟩
  | false =>
    by_cases h : st.is_recording = true ∧
        cfg.silence_frames_threshold ≤ st.consecutive_silence_frames + 1
    · rw [processFrame_silence_stop cfg st now h.1 h.2]
      exact ⟨_, rfl, by simp, by simp, by simp [h.1], by simp,
        by simp [h.1, h.2], by simp, by simp⟩
    · rw [processFrame_silence_cont cfg st now h]
      refine ⟨_, rfl, by simp, by simp, by simp, by simp, ?_, by simp, by simp⟩
      simp only [Bool.false_eq_true, false_iff]
      intro hc
      exact h ⟨hc.1, hc.2.2⟩

/-- **C8.** For every frame whose length differs from the configured VAD
frame size, `process_frame` returns a decision carrying an error marker
and leaves the entire VAD state unchanged (voice counter, silence counter,
recording flag and recording start time all keep their values). -/
theorem vad_process_frame_size_mismatch (cfg : VADConfig) (st : VADState)
    (frameLen : ℕ) (isVoice : Bool) (now : ℚ)
    (h : frameLen ≠ cfg.frame_size) :
    processFrame cfg st frameLen isVoice now = (st, .error) := by
  unfold processFrame
  rw [if_pos h]

/-- Witness for `vad_process_frame_size_mismatch`: the default
configuration has a 480-sample frame, so a 479-sample buffer is rejected
with the state returned untouched. -/
theorem vad_process_frame_size_mismatch_witness :
    (479 : ℕ) ≠ VADConfig.frame_size {} ∧
    processFrame {} VADState.init 479 true 0 = (VADState.init, .error) :=
  ⟨by decide, vad_process_frame_size_mismatch {} VADState.init 479 true 0
    (by decide)⟩

/-! ### C7: the streak invariant -/

/-- "Exactly one of the voice streak and the silence streak is nonzero." -/
def exactlyOneStreak (st : VADState) : Prop :=
  (st.consecutive_voice_frames ≠ 0 ∧ st.consecutive_silence_frames = 0) ∨
  (st.consecutive_voice_frames = 0 ∧ st.consecutive_silence_frames ≠ 0)

instance (st : VADState) : Decidable (exactlyOneStreak st) := by
  unfold exactlyOneStreak; infer_instance

/-- "At most one of the voice streak and the silence streak is nonzero." -/
def atMostOneStreak (st : VADState) : Prop :=
  st.consecutive_voice_frames = 0 ∨ st.consecutive_silence_frames = 0

/-- The states a `VADProcessor` instance can be in during its lifetime:
right after `__init__`, after `reset_state`, and after any
`process_frame` call. -/
inductive VADReachable (cfg : VADConfig) : VADState → Prop
  | init : VADReachable cfg VADState.init
  | reset (st : VADState) : VADReachable cfg st → VADReachable cfg st.reset
  | step (st : VADState) (frameLen : ℕ) (isVoice : Bool) (now : ℚ) :
      VADReachable cfg st →
      VADReachable cfg (processFrame cfg st frameLen isVoice now).1

/-- **C7, counterexample.** Immediately after construction (and likewise
after `reset_state`) *both* streak counters are zero, so at that instant
it is false that exactly one of them is nonzero. -/
theorem vad_streaks_init_both_zero :
    VADState.init.consecutive_voice_frames = 0 ∧
    VADState.init.consecutive_silence_frames = 0 ∧
    ¬ exactlyOneStreak VADState.init ∧
    ¬ exactlyOneStreak (VADState.reset VADState.init) := by
  decide

/-- **C7, amended.** Throughout a VAD state instance's lifetime at most
one of the two streak counters is nonzero; both are zero exactly at
construction/reset, and after every successfully processed frame exactly
one of them is nonzero. -/
theorem vad_streak_invariant (cfg : VADConfig) :
    (∀ st : VADState, VADReachable cfg st → atMostOneStreak st) ∧
    (∀ (st : VADState) (frameLen : ℕ) (isVoice : Bool) (now : ℚ)
        (d : VADDecision),
      (processFrame cfg st frameLen isVoice now).2 = .ok d →
      exactlyOneStreak (processFrame cfg st frameLen isVoice now).1) := by
  constructor
  · intro st h
    induction h with
    | init => exact Or.inl rfl
    | reset st _ _ => exact Or.inl rfl
    | step st frameLen isVoice now _ ih =>
      by_cases hlen : frameLen = cfg.frame_size
      · subst hlen
        cases isVoice with
        | true =>
          by_cases hc : st.is_recording = false ∧
              cfg.voice_frames_threshold ≤ st.consecutive_voice_frames + 1
          · rw [processFrame_voice_start cfg st now hc.1 hc.2]; exact Or.inr rfl
          · rw [processFrame_voice_cont cfg st now hc]; exact Or.inr rfl
        | false =>
          by_cases hc : st.is_recording = true ∧
              cfg.silence_frames_threshold ≤ st.consecutive_silence_frames + 1
          · rw [processFrame_silence_stop cfg st now hc.1 hc.2]; exact Or.inl rfl
          · rw [processFrame_silence_cont cfg st now hc]; exact Or.inl rfl
      · rw [vad_process_frame_size_mismatch cfg st frameLen isVoice now hlen]
        exact ih
  · intro st frameLen isVoice now d hok
    by_cases hlen : frameLen = cfg.frame_size
    · subst hlen
      cases isVoice with
      | true =>
        by_cases hc : st.is_recording = false ∧
            cfg.voice_frames_threshold ≤ st.consecutive_voice_frames + 1
        · rw [processFrame_voice_start cfg st now hc.1 hc.2]
          exact Or.inl ⟨Nat.succ_ne_zero _, rfl⟩
        · rw [processFrame_voice_cont cfg st now hc]
          exact Or.inl ⟨Nat.succ_ne_zero _, rfl⟩
      | false =>
        by_cases hc : st.is_recording = true ∧
            cfg.silence_frames_threshold ≤ st.consecutive_silence_frames + 1
        · rw [processFrame_silence_stop cfg st now hc.1 hc.2]
          exact Or.inr ⟨rfl, Nat.succ_ne_zero _⟩
        · rw [processFrame_silence_cont cfg st now hc]
          exact Or.inr ⟨rfl, Nat.succ_ne_zero _⟩
    · rw [vad_process_frame_size_mismatch cfg st frameLen isVoice now hlen] at hok
      exact absurd hok (by simp)

/-- Witness for `vad_streak_invariant`: at default configuration, the
initial state satisfies the invariant, and processing one correctly-sized
voice frame from it yields exactly one nonzero streak. -/
theorem vad_streak_invariant_witness :
    atMostOneStreak VADState.init ∧
    exactlyOneStreak
      (processFrame {} VADState.init (VADConfig.frame_size {}) true 0).1 :=
  ⟨(vad_streak_invariant {}).1 VADState.init VADReachable.init,
   (vad_streak_invariant {}).2 VADState.init (VADConfig.frame_size {}) true 0
     { is_voice := true, is_recording := false,
       should_start_recording := false, should_stop_recording := false,
       consecutive_voice_frames := 0, consecutive_silence_frames := 0,
       recording_duration := none, timestamp := 0 } (by decide)⟩

/-! ### C2: bounded enqueue on `should_stop` -/

/-- **C2.** When the VAD signals `should_stop`, the Capture stage wraps
the finished utterance and enqueues it into D1 with a bounded wait of
`max_blocking_ms / 1000` seconds (default `max_blocking_ms` is 50): if the
queue is full at the deadline, the utterance is dropped, `queue_timeouts`
is incremented by exactly one and `recordings_created` is untouched; on a
successful enqueue `recordings_created` is incremented and
`queue_timeouts` is untouched.  Either way the accumulator is cleared. -/
theorem capture_stop_recording_backpressure (st : CaptureState)
    (rec : List ℤ) (h : st.current_recording = some rec) :
    (st.asr_queue.length < st.queue_capacity →
      (stopRecording st).asr_queue = st.asr_queue ++ [mkRecordingInfo st rec] ∧
      (stopRecording st).stats.recordings_created
        = st.stats.recordings_created + 1 ∧
      (stopRecording st).stats.queue_timeouts = st.stats.queue_timeouts) ∧
    (¬ st.asr_queue.length < st.queue_capacity →
      (stopRecording st).asr_queue = st.asr_queue ∧
      (stopRecording st).stats.queue_timeouts = st.stats.queue_timeouts + 1 ∧
      (stopRecording st).stats.recordings_created
        = st.stats.recordings_created) ∧
    (stopRecording st).current_recording = none ∧
    timeoutSeconds st.max_blocking_ms = (st.max_blocking_ms : ℚ) / 1000 ∧
    defaultMaxBlockingMs = 50 := by
  by_cases hq : st.asr_queue.length < st.queue_capacity
  · simp [stopRecording, h, tryPut, hq, timeoutSeconds, defaultMaxBlockingMs]
  · simp [stopRecording, h, tryPut, hq, timeoutSeconds, defaultMaxBlockingMs]

/-- Witness for `capture_stop_recording_backpressure`: a state with an
active one-sample recording, an empty ASR queue of capacity 10; the
enqueue succeeds, `recordings_created` becomes 1 and `queue_timeouts`
stays 0. -/
theorem capture_stop_recording_backpressure_witness :
    (stopRecording
      { sample_rate := 16000, channels := 1, max_blocking_ms := 50
        vad_cfg := {}, vad := VADState.init
        current_recording := some [7]
        recording_start_time := some 0
        stats := CaptureStats.init
        asr_queue := [], queue_capacity := 10 }).stats.recordings_created
      = 1 ∧
    (stopRecording
      { sample_rate := 16000, channels := 1, max_blocking_ms := 50
        vad_cfg := {}, vad := VADState.init
        current_recording := some [7]
        recording_start_time := some 0
        stats := CaptureStats.init
        asr_queue := [], queue_capacity := 10 }).stats.queue_timeouts = 0 := by
  have h := capture_stop_recording_backpressure
    { sample_rate := 16000, channels := 1, max_blocking_ms := 50
      vad_cfg := {}, vad := VADState.init
      current_recording := some [7]
      recording_start_time := some 0
      stats := CaptureStats.init
      asr_queue := [], queue_capacity := 10 } [7] rfl
  have h2 := h.1 (by decide)
  exact ⟨h2.2.1, h2.2.2⟩

/-! ### C1: peak normalization of synthesized audio -/

/-- **C1.** Evaluation of the worker's normalization at a failing input:
a non-empty decoded chunk whose samples are all zero has peak 0, and the
code divides by it anyway (`len(audio_fp) > 0` is the only guard), so
every emitted sample is the non-real float `0.0/0.0` — NaN, not silence —
and the chunk is still put on the output queue D2.  This contradicts the
code's own comment ("Normalize to [-1, 1] range") and the spec ("if max
is 0, emit silence"). -/
theorem worker_normalize_zero_peak_emits_nan :
    maxAbs (([0, 0] : List ℤ).map (fun x => (x : ℚ))) = 0 ∧
    normalizeChunk [0, 0] = [none, none] := by
  decide

/-! ### C5: model cache bound and eviction -/

/-- **C5, counterexample.** The default cache bound is 128, not 10; and
eviction is not least-recently-used-with-zero-references: with a cache of
capacity 2 holding (es,en) then (en,es), a `get_model` hit on (es,en)
(which performs no recency update and no reference count — the read path
returns straight from the dict), followed by caching (es,de), evicts
(es,en), the entry *most* recently used. -/
theorem model_cache_counterexample :
    defaultMaxCacheSize = 128 ∧ defaultMaxCacheSize ≠ 10 ∧
    getModelCached [(("es", "en"), 1), (("en", "es"), 2)] ("es", "en")
      = some 1 ∧
    cacheTranslationModel [(("es", "en"), (1 : ℕ)), (("en", "es"), 2)] 2
        ("es", "de") 3
      = [(("en", "es"), 2), (("es", "de"), 3)] := by
  refine ⟨rfl, by decide, rfl, ?_⟩
  rfl

/-- **C5, amended.** The translation-model cache holds at most
`max_cache_size` entries (default 128), and when a new key is inserted
into a full cache the evicted entry is the *first-inserted* (oldest)
entry, independent of how recently it was used; there is no reference
counting. -/
theorem model_cache_bounded_fifo_eviction {α : Type}
    (cache : List ((String × String) × α)) (maxSize : ℕ)
    (k : String × String) (m : α)
    (hpos : 0 < maxSize) (hle : cache.length ≤ maxSize) :
    (cacheTranslationModel cache maxSize k m).length ≤ maxSize ∧
    (cache.length = maxSize → cache.any (fun e => e.1 == k) = false →
      cacheTranslationModel cache maxSize k m = cache.tail ++ [(k, m)]) := by
  constructor
  · unfold cacheTranslationModel dictSet
    by_cases hfull : maxSize ≤ cache.length
    · have hlen : cache.length = maxSize := le_antisymm hle hfull
      rw [if_pos hfull]
      by_cases hmem : cache.tail.any (fun e => e.1 == k) = true
      · rw [if_pos hmem]
        simp only [List.length_map, List.length_tail]
        omega
      · rw [if_neg hmem]
        simp only [List.length_append, List.length_tail, List.length_singleton]
        omega
    · rw [if_neg hfull]
      by_cases hmem : cache.any (fun e => e.1 == k) = true
      · rw [if_pos hmem]
        simp only [List.length_map]
        omega
      · rw [if_neg hmem]
        simp only [List.length_append, List.length_singleton]
        omega
  · intro hlen hnk
    unfold cacheTranslationModel dictSet
    rw [if_pos (le_of_eq hlen.symm)]
    have htail : cache.tail.any (fun e => e.1 == k) = false := by
      cases cache with
      | nil => rfl
      | cons a l =>
        simp only [List.any_cons, Bool.or_eq_false_iff] at hnk
        exact hnk.2
    rw [if_neg (by rw [htail]; exact Bool.false_ne_true)]

/-- Witness for `model_cache_bounded_fifo_eviction`: inserting a third
pair into a full two-entry cache keeps the bound and evicts the oldest
entry. -/
theorem model_cache_bounded_fifo_eviction_witness :
    (cacheTranslationModel [(("es", "en"), (1 : ℕ)), (("en", "es"), 2)] 2
        ("en", "fr") 4).length ≤ 2 ∧
    cacheTranslationModel [(("es", "en"), (1 : ℕ)), (("en", "es"), 2)] 2
        ("en", "fr") 4
      = [(("en", "es"), 2), (("en", "fr"), 4)] :=
  have h := model_cache_bounded_fifo_eviction
    [(("es", "en"), (1 : ℕ)), (("en", "es"), 2)] 2 ("en", "fr") 4
    (by decide) (by decide)
  ⟨h.1, h.2 (by decide) (by decide)⟩

/-! ### C6: batch pre-loading -/

/-- **C6, counterexample.** Pre-loading for `["es", "en"]` attempts (and
records) exactly the two supported translation pairs — the results map is
`{"es->en": _, "en->es": _}` and nothing else; no ASR (Whisper) handle
and no TTS handle is loaded by `load_all_for_languages` (the function
only ever calls `_load_translation_model`). -/
theorem load_all_no_asr_tts_counterexample :
    loadAllForLanguages (fun _ => true) ["es", "en"]
      = [("es->en", true), ("en->es", true)] := by
  rfl

/-- **C6, amended.** For every list of language codes,
`load_all_for_languages` attempts to load exactly the supported (src, dst)
*translation* pairs among those languages (src ≠ dst, in the nested-loop
order), records per-pair success or failure keyed `"src->dst"`, and one
pair's failure does not abort the rest: every generated pair gets an
entry determined by its own load outcome alone. -/
theorem load_all_for_languages_pairs (loadOk : String × String → Bool)
    (langs : List String) :
    (∀ p : String × String,
      p ∈ pairsToLoad langs ↔
        p.1 ∈ langs ∧ p.2 ∈ langs ∧ p.1 ≠ p.2 ∧ isSupportedPair p = true) ∧
    (∀ p ∈ pairsToLoad langs,
      (pairKey p, loadOk p) ∈ loadAllForLanguages loadOk langs) ∧
    (loadAllForLanguages loadOk langs).length = (pairsToLoad langs).length := by
  refine ⟨?_, ?_, by simp [loadAllForLanguages]⟩
  · intro p
    constructor
    · intro hmem
      obtain ⟨src, hsrc, hp⟩ := List.mem_flatMap.1 hmem
      obtain ⟨tgt, htgt, hg⟩ := List.mem_filterMap.1 hp
      by_cases hc : src ≠ tgt ∧ isSupportedPair (src, tgt) = true
      · rw [if_pos hc] at hg
        obtain rfl := Option.some.inj hg
        exact ⟨hsrc, htgt, hc.1, hc.2⟩
      · rw [if_neg hc] at hg
        exact absurd hg (by simp)
    · rintro ⟨h1, h2, h3, h4⟩
      refine List.mem_flatMap.2 ⟨p.1, h1, List.mem_filterMap.2 ⟨p.2, h2, ?_⟩⟩
      rw [if_pos ⟨h3, h4⟩]
  · intro p hp
    exact List.mem_map_of_mem (fun q => (pairKey q, loadOk q)) hp

/-- Witness for `load_all_for_languages_pairs`: with a loader that
succeeds only on (es,en), the results for `["es", "en"]` still contain an
entry for both pairs — success for one, failure for the other (partial
success). -/
theorem load_all_for_languages_pairs_witness :
    ("es", "en") ∈ pairsToLoad ["es", "en"] ∧
    ("es->en", true)
      ∈ loadAllForLanguages (fun p => p == ("es", "en")) ["es", "en"] ∧
    ("en->es", false)
      ∈ loadAllForLanguages (fun p => p == ("es", "en")) ["es", "en"] := by
  have h := load_all_for_languages_pairs (fun p => p == ("es", "en"))
    ["es", "en"]
  have h1 : ("es", "en") ∈ pairsToLoad ["es", "en"] :=
    (h.1 ("es", "en")).2 ⟨by decide, by decide, by decide, by decide⟩
  have h2 : ("en", "es") ∈ pairsToLoad ["es", "en"] :=
    (h.1 ("en", "es")).2 ⟨by decide, by decide, by decide, by decide⟩
  exact ⟨h1, h.2.1 ("es", "en") h1, h.2.1 ("en", "es") h2⟩

/-! ### C9: jitter-buffer sample conservation -/

theorem totalSamples_append (a b : List (List ℚ)) :
    totalSamples (a ++ b) = totalSamples a + totalSamples b := by
  simp [totalSamples]

theorem samplesIn_cons (op : JOp) (ops : List JOp) :
    samplesIn (op :: ops) = opSamples op + samplesIn ops := by
  simp [samplesIn]

/-- One jitter-buffer operation conserves samples: what was held plus
what comes in equals what is held afterwards plus what left. -/
theorem jitterStep_balance (chunks : List (List ℚ)) (op : JOp) :
    totalSamples chunks + opSamples op
      = totalSamples (jitterStep chunks op).1
        + totalSamples (jitterStep chunks op).2 := by
  cases op with
  | push c => simp [jitterStep, opSamples, totalSamples_append, totalSamples]
  | pop =>
    cases chunks with
    | nil => simp [jitterStep, opSamples, totalSamples]
    | cons c rest => simp [jitterStep, opSamples, totalSamples]; ring
  | flush => simp [jitterStep, opSamples, totalSamples]

/-- Conservation invariant: over any operation sequence, the samples held
initially plus the samples pushed equal the samples still held plus the
samples that left the buffer. -/
theorem jitterRun_conservation (ops : List JOp) :
    ∀ chunks : List (List ℚ),
      totalSamples chunks + samplesIn ops
        = totalSamples (jitterRun chunks ops).1
          + totalSamples (jitterRun chunks ops).2 := by
  induction ops with
  | nil => intro chunks; simp [jitterRun, samplesIn, totalSamples]
  | cons op ops ih =>
    intro chunks
    have h1 := jitterStep_balance chunks op
    have h2 := ih (jitterStep chunks op).1
    simp only [jitterRun, samplesIn_cons, totalSamples_append]
    omega

/-- `jitterRun` over an appended operation list splits as expected. -/
theorem jitterRun_append (l1 l2 : List JOp) :
    ∀ chunks : List (List ℚ),
      jitterRun chunks (l1 ++ l2)
        = ((jitterRun (jitterRun chunks l1).1 l2).1,
           (jitterRun chunks l1).2 ++ (jitterRun (jitterRun chunks l1).1 l2).2) := by
  induction l1 with
  | nil => intro chunks; simp [jitterRun]
  | cons op l1 ih =>
    intro chunks
    simp only [List.cons_append, jitterRun, List.append_eq, List.append_assoc]
    rw [ih (jitterStep chunks op).1]

/-- **C9.** For every closed playback session — any sequence of
`add_chunk` / `get_next_chunk` operations on a jitter buffer that starts
empty, closed by the `flush` that `BlackHoleReproductionThread.stop`
performs — the total number of samples pushed into the buffer equals the
total number of samples that came out of it, and the buffer ends empty:
no pushed audio remains stuck between push and pop. -/
theorem jitter_buffer_sample_conservation (ops : List JOp) :
    totalSamples (jitterRun [] (ops ++ [JOp.flush])).2
      = samplesIn (ops ++ [JOp.flush]) ∧
    (jitterRun [] (ops ++ [JOp.flush])).1 = [] := by
  have happ := jitterRun_append ops [JOp.flush] []
  have hflush : ∀ c : List (List ℚ), jitterRun c [JOp.flush] = ([], c ++ []) := by
    intro c; simp [jitterRun, jitterStep]
  have hempty : (jitterRun [] (ops ++ [JOp.flush])).1 = [] := by
    rw [happ, hflush]
  refine ⟨?_, hempty⟩
  have hcons := jitterRun_conservation (ops ++ [JOp.flush]) []
  rw [hempty] at hcons
  simp only [totalSamples, List.map_nil, List.sum_nil, zero_add] at hcons
  exact hcons.symm

/-! ### C4: long-audio chunked transcription -/

theorem chunksOfAux_nil {α : Type} (n : ℕ) :
    ∀ fuel : ℕ, chunksOfAux n fuel ([] : List α) = [] := by
  intro fuel; cases fuel <;> rfl

/-- The chunks joined back give exactly the audio: the chunk loop covers
every sample once, with no overlap. -/
theorem chunksOfAux_flatten {α : Type} (n : ℕ) (hn : 0 < n) :
    ∀ (fuel : ℕ) (l : List α), l.length ≤ fuel →
      (chunksOfAux n fuel l).flatten = l := by
  intro fuel
  induction fuel with
  | zero =>
    intro l hl
    rw [List.length_eq_zero.1 (Nat.le_zero.1 hl)]
    rfl
  | succ fuel ih =>
    intro l hl
    cases l with
    | nil => rfl
    | cons a t =>
      show ((a :: t).take n :: chunksOfAux n fuel ((a :: t).drop n)).flatten
        = a :: t
      rw [List.flatten_cons, ih ((a :: t).drop n)
        (by simp only [List.length_drop]; omega)]
      exact List.take_append_drop n (a :: t)

/-- The number of chunks is `⌈len / n⌉`. -/
theorem chunksOfAux_length {α : Type} (n : ℕ) (hn : 0 < n) :
    ∀ (fuel : ℕ) (l : List α), l.length ≤ fuel →
      (chunksOfAux n fuel l).length = (l.length + n - 1) / n := by
  intro fuel
  induction fuel with
  | zero =>
    intro l hl
    rw [List.length_eq_zero.1 (Nat.le_zero.1 hl)]
    simp only [chunksOfAux_nil, List.length_nil, Nat.zero_add]
    exact (Nat.div_eq_of_lt (by omega)).symm
  | succ fuel ih =>
    intro l hl
    cases l with
    | nil =>
      simp only [chunksOfAux_nil, List.length_nil, Nat.zero_add]
      exact (Nat.div_eq_of_lt (by omega)).symm
    | cons a t =>
      show (((a :: t).take n :: chunksOfAux n fuel ((a :: t).drop n))).length
        = ((a :: t).length + n - 1) / n
      rw [List.length_cons, ih ((a :: t).drop n)
        (by simp only [List.length_drop]; omega)]
      simp only [List.length_drop, List.length_cons]
      rcases Nat.le_total (t.length + 1) n with hle | hge
      · have h1 : t.length + 1 - n = 0 := by omega
        rw [h1]
        have hge2 : n ≤ t.length + 1 + n - 1 := by omega
        have hdiv : (t.length + 1 + n - 1) / n = 1 := by
          rw [Nat.div_eq_sub_div hn hge2, Nat.div_eq_of_lt (by omega)]
        rw [hdiv, Nat.zero_add, Nat.div_eq_of_lt (by omega)]
      · have h1 : t.length + 1 - n + n - 1 = t.length := by omega
        have h2 : t.length + 1 + n - 1 = t.length + n := by omega
        rw [h1, h2, Nat.add_div_right _ hn]

/-- The chunk loop's first chunk is the first `n` samples. -/
theorem chunksOf_head {α : Type} (n : ℕ) (l : List α) (hl : l ≠ []) :
    (chunksOf n l).head? = some (l.take n) := by
  cases l with
  | nil => exact absurd rfl hl
  | cons a t => rfl

/-- A demonstration ASR engine: short inputs (at most one chunk long)
transcribe as `"t"` in language `"en"`; the full file detects `"xx"`. -/
def asrDemo (a : List ℤ) : TranscribeResult :=
  if a.length ≤ 16000 then { text := "t", language := "en" }
  else { text := "full", language := "xx" }

/-- **C4, counterexample.** The detected language of a long transcription
is *not* taken from the first non-empty chunk: with `chunk_length = 1` and
a 16001-sample (16 kHz) input, the first chunk transcribes non-empty with
language `"en"`, yet the returned language is the full-file detection
`"xx"` (the code re-transcribes the whole file for the language; on an
exception it would even default to `"es"`). -/
theorem transcribe_long_audio_language_counterexample :
    (transcribeLongAudio asrDemo (List.replicate 16001 (0 : ℤ))
        librosaSampleRate 1).language = "xx" ∧
    (chunksOf (1 * librosaSampleRate) (List.replicate 16001 (0 : ℤ))).head?
      = some ((List.replicate 16001 (0 : ℤ)).take (1 * librosaSampleRate)) ∧
    (asrDemo ((List.replicate 16001 (0 : ℤ)).take
        (1 * librosaSampleRate))).text ≠ "" ∧
    (asrDemo ((List.replicate 16001 (0 : ℤ)).take
        (1 * librosaSampleRate))).language = "en" ∧
    (asrDemo (List.replicate 16001 (0 : ℤ))).language = "xx" ∧
    ("xx" : String) ≠ "en" := by
  have hlen : (List.replicate 16001 (0 : ℤ)).length = 16001 :=
    List.length_replicate 16001 0
  have hlong : ¬((List.replicate 16001 (0 : ℤ)).length
      ≤ 1 * librosaSampleRate) := by
    rw [hlen]; decide
  have htake : ((List.replicate 16001 (0 : ℤ)).take
      (1 * librosaSampleRate)).length = 16000 := by
    rw [List.length_take, hlen]; decide
  have hfull : (asrDemo (List.replicate 16001 (0 : ℤ))).language = "xx" := by
    unfold asrDemo
    rw [hlen, if_neg (by decide)]
  refine ⟨?_, ?_, ?_, ?_, hfull, by decide⟩
  · unfold transcribeLongAudio
    rw [hlen, if_neg (by decide)]
    simp only []
    exact hfull
  · exact chunksOf_head (1 * librosaSampleRate) (List.replicate 16001 0)
      (by intro h; rw [h] at hlen; exact absurd hlen (by decide))
  · unfold asrDemo
    rw [if_pos (by rw [htake])]
    decide
  · unfold asrDemo
    rw [if_pos (by rw [htake])]

/-- **C4, amended.** For every utterance longer than
`chunk_length` seconds (`chunk_length * sr` samples), the ASR step splits
the audio into consecutive **non-overlapping** chunks that cover it
exactly, processes exactly `⌈len / chunk_size⌉` chunks, returns as
transcript the chunk transcripts joined in chunk order (with single
spaces, stripped), and takes the detected language from a separate
transcription of the whole file — not from the first non-empty chunk. -/
theorem transcribe_long_audio_chunking (asr : List ℤ → TranscribeResult)
    (audio : List ℤ) (sr chunkLength : ℕ)
    (hpos : 0 < chunkLength * sr)
    (hlong : chunkLength * sr < audio.length) :
    (chunksOf (chunkLength * sr) audio).flatten = audio ∧
    (chunksOf (chunkLength * sr) audio).length
      = (audio.length + chunkLength * sr - 1) / (chunkLength * sr) ∧
    (transcribeLongAudio asr audio sr chunkLength).text
      = (String.intercalate " "
          ((chunksOf (chunkLength * sr) audio).map (fun c => (asr c).text))).trim ∧
    (transcribeLongAudio asr audio sr chunkLength).language
      = (asr audio).language := by
  refine ⟨chunksOfAux_flatten (chunkLength * sr) hpos audio.length audio le_rfl,
    chunksOfAux_length (chunkLength * sr) hpos audio.length audio le_rfl,
    ?_, ?_⟩
  · rw [transcribeLongAudio, if_neg (by omega)]
  · rw [transcribeLongAudio, if_neg (by omega)]

/-- Witness for `transcribe_long_audio_chunking`: 3 one-sample chunks for
a 3-sample input at `sr = 1`, `chunk_length = 1`. -/
theorem transcribe_long_audio_chunking_witness :
    (chunksOf (1 * 1) [(5 : ℤ), 6, 7]).flatten = [(5 : ℤ), 6, 7] ∧
    (chunksOf (1 * 1) [(5 : ℤ), 6, 7]).length = (3 + 1 * 1 - 1) / (1 * 1) ∧
    (transcribeLongAudio (fun a => { text := toString a.length, language := "en" })
        [(5 : ℤ), 6, 7] 1 1).text
      = (String.intercalate " "
          ((chunksOf (1 * 1) [(5 : ℤ), 6, 7]).map
            (fun c => ((fun (a : List ℤ) =>
              ({ text := toString a.length, language := "en" } :
                TranscribeResult)) c).text))).trim ∧
    (transcribeLongAudio (fun a => { text := toString a.length, language := "en" })
        [(5 : ℤ), 6, 7] 1 1).language
      = ((fun (a : List ℤ) => ({ text := toString a.length, language := "en" } :
          TranscribeResult)) [(5 : ℤ), 6, 7]).language := by
  have h := transcribe_long_audio_chunking
    (fun a => { text := toString a.length, language := "en" })
    [(5 : ℤ), 6, 7] 1 1 (by decide) (by decide)
  simpa using h

/-! ### C10: composition of an utterance's payload -/

theorem runFrames_nil (ring : List ℤ) (st : CaptureState) :
    runFrames ring st [] = st := rfl

theorem runFrames_cons (ring : List ℤ) (st : CaptureState) (p : Frame × ℚ)
    (l : List (Frame × ℚ)) :
    runFrames ring st (p :: l)
      = runFrames ring (callbackFrameStep ring st p.1 p.2) l := rfl

theorem runFrames_append (ring : List ℤ) (st : CaptureState)
    (l1 l2 : List (Frame × ℚ)) :
    runFrames ring st (l1 ++ l2) = runFrames ring (runFrames ring st l1) l2 :=
  List.foldl_append _ _ _ _

/-- A frame whose decision is `should_start`: the callback copies the
pre-roll into a fresh accumulator and then appends this very frame to it;
the queue and the configuration fields are untouched. -/
theorem callbackFrameStep_start (ring : List ℤ) (st : CaptureState)
    (f : Frame) (now : ℚ) (d : VADDecision)
    (hok : (processFrame st.vad_cfg st.vad f.samples.length f.isVoice now).2
      = .ok d)
    (hs : d.should_start_recording = true) :
    (callbackFrameStep ring st f now).current_recording
      = some (lastSamples (preRollNumSamples st.sample_rate) ring ++ f.samples) ∧
    (callbackFrameStep ring st f now).asr_queue = st.asr_queue ∧
    (callbackFrameStep ring st f now).sample_rate = st.sample_rate ∧
    (callbackFrameStep ring st f now).channels = st.channels ∧
    (callbackFrameStep ring st f now).queue_capacity = st.queue_capacity := by
  simp only [callbackFrameStep, hok, hs, startRecording, if_true]
  exact ⟨trivial, trivial, trivial, trivial, trivial⟩

/-- A frame during recording whose decision is neither `should_start` nor
`should_stop`: the frame is appended to the accumulator; the queue and
the configuration fields are untouched. -/
theorem callbackFrameStep_continue (ring : List ℤ) (st : CaptureState)
    (f : Frame) (now : ℚ) (acc : List ℤ) (d : VADDecision)
    (hcur : st.current_recording = some acc)
    (hok : (processFrame st.vad_cfg st.vad f.samples.length f.isVoice now).2
      = .ok d)
    (hns : d.should_start_recording = false)
    (hnt : d.should_stop_recording = false) :
    (callbackFrameStep ring st f now).current_recording
      = some (acc ++ f.samples) ∧
    (callbackFrameStep ring st f now).asr_queue = st.asr_queue ∧
    (callbackFrameStep ring st f now).sample_rate = st.sample_rate ∧
    (callbackFrameStep ring st f now).channels = st.channels ∧
    (callbackFrameStep ring st f now).queue_capacity = st.queue_capacity := by
  simp only [callbackFrameStep, hok, hns, hnt, hcur, if_false,
    Bool.false_eq_true]
  exact ⟨trivial, trivial, trivial, trivial, trivial⟩

/-- A frame whose decision is `should_stop`, with room in the queue: the
closed accumulator is wrapped and enqueued, and this frame is *not*
appended to it (the accumulator is already cleared). -/
theorem callbackFrameStep_stop (ring : List ℤ) (st : CaptureState)
    (f : Frame) (now : ℚ) (acc : List ℤ) (d : VADDecision)
    (hcur : st.current_recording = some acc)
    (hok : (processFrame st.vad_cfg st.vad f.samples.length f.isVoice now).2
      = .ok d)
    (hstop : d.should_stop_recording = true)
    (hns : d.should_start_recording = false)
    (hroom : st.asr_queue.length < st.queue_capacity) :
    ∃ info : RecordingInfo,
      (callbackFrameStep ring st f now).asr_queue = st.asr_queue ++ [info] ∧
      info.wav_data.frames = acc ∧
      info.samples = acc.length ∧
      (callbackFrameStep ring st f now).current_recording = none := by
  simp only [callbackFrameStep, hok, hstop, hns, stopRecording, hcur,
    tryPut, if_pos hroom, if_false, if_true, Bool.false_eq_true]
  exact ⟨_, rfl, rfl, rfl, trivial⟩

/-- Running the per-frame loop over frames none of which triggers a start
or a stop keeps accumulating: every frame's samples are appended in
order, and the queue and configuration fields stay untouched. -/
theorem runFrames_keep (ring : List ℤ) :
    ∀ (mids : List (Frame × ℚ)) (st : CaptureState) (acc : List ℤ),
      st.current_recording = some acc →
      (∀ (i : ℕ) (hi : i < mids.length),
        ∃ d : VADDecision,
          (processFrame (runFrames ring st (mids.take i)).vad_cfg
              (runFrames ring st (mids.take i)).vad
              (mids.get ⟨i, hi⟩).1.samples.length
              (mids.get ⟨i, hi⟩).1.isVoice
              (mids.get ⟨i, hi⟩).2).2 = .ok d ∧
          d.should_start_recording = false ∧
          d.should_stop_recording = false) →
      (runFrames ring st mids).current_recording
          = some (acc ++ mids.flatMap (fun p => p.1.samples)) ∧
      (runFrames ring st mids).asr_queue = st.asr_queue ∧
      (runFrames ring st mids).sample_rate = st.sample_rate ∧
      (runFrames ring st mids).channels = st.channels ∧
      (runFrames ring st mids).queue_capacity = st.queue_capacity := by
  intro mids
  induction mids with
  | nil =>
    intro st acc hcur _
    simp only [runFrames_nil, List.flatMap_nil, List.append_nil]
    exact ⟨hcur, trivial, trivial, trivial, trivial⟩
  | cons m rest ih =>
    intro st acc hcur hdec
    obtain ⟨d0, hok0, hns0, hnt0⟩ := hdec 0 (by simp)
    simp only [List.take_zero, runFrames_nil, List.get_cons_zero] at hok0
    have hstep := callbackFrameStep_continue ring st m.1 m.2 acc d0 hcur hok0
      hns0 hnt0
    have hshift : ∀ (i : ℕ) (hi : i < rest.length),
        ∃ d : VADDecision,
          (processFrame
              (runFrames ring (callbackFrameStep ring st m.1 m.2)
                (rest.take i)).vad_cfg
              (runFrames ring (callbackFrameStep ring st m.1 m.2)
                (rest.take i)).vad
              (rest.get ⟨i, hi⟩).1.samples.length
              (rest.get ⟨i, hi⟩).1.isVoice
              (rest.get ⟨i, hi⟩).2).2 = .ok d ∧
          d.should_start_recording = false ∧
          d.should_stop_recording = false := by
      intro i hi
      have := hdec (i + 1) (by simpa using Nat.succ_lt_succ hi)
      simpa only [List.take_succ_cons, runFrames_cons, List.get_cons_succ]
        using this
    have hrest := ih (callbackFrameStep ring st m.1 m.2) (acc ++ m.1.samples)
      hstep.1 hshift
    rw [runFrames_cons]
    refine ⟨?_, ?_, ?_, ?_, ?_⟩
    · rw [hrest.1]
      simp [List.flatMap_cons]
    · rw [hrest.2.1, hstep.2.1]
    · rw [hrest.2.2.1, hstep.2.2.1]
    · rw [hrest.2.2.2.1, hstep.2.2.2.1]
    · rw [hrest.2.2.2.2, hstep.2.2.2.2]

/-- **C10.** In the capture callback's per-frame loop, the frame that
triggers `should_start` is itself appended to the newly created utterance
accumulator immediately after the pre-roll copy, and the frame that
triggers `should_stop` is not included in the emitted utterance: for any
run consisting of a start-trigger frame, frames that trigger neither
transition, and a stop-trigger frame (with room in D1), the enqueued
utterance's payload is exactly the pre-roll, then the start-trigger
frame, then every subsequent frame strictly before the stop-trigger
frame. -/
theorem capture_utterance_payload (ring : List ℤ) (st0 : CaptureState)
    (fstart : Frame × ℚ) (mids : List (Frame × ℚ)) (fstop : Frame × ℚ)
    (hstart : ∃ d : VADDecision,
      (processFrame st0.vad_cfg st0.vad fstart.1.samples.length
          fstart.1.isVoice fstart.2).2 = .ok d ∧
      d.should_start_recording = true)
    (hmid : ∀ (i : ℕ) (hi : i < mids.length),
      ∃ d : VADDecision,
        (processFrame
            (runFrames ring (callbackFrameStep ring st0 fstart.1 fstart.2)
              (mids.take i)).vad_cfg
            (runFrames ring (callbackFrameStep ring st0 fstart.1 fstart.2)
              (mids.take i)).vad
            (mids.get ⟨i, hi⟩).1.samples.length
            (mids.get ⟨i, hi⟩).1.isVoice
            (mids.get ⟨i, hi⟩).2).2 = .ok d ∧
        d.should_start_recording = false ∧
        d.should_stop_recording = false)
    (hstop : ∃ d : VADDecision,
      (processFrame
          (runFrames ring (callbackFrameStep ring st0 fstart.1 fstart.2)
            mids).vad_cfg
          (runFrames ring (callbackFrameStep ring st0 fstart.1 fstart.2)
            mids).vad
          fstop.1.samples.length fstop.1.isVoice fstop.2).2 = .ok d ∧
      d.should_stop_recording = true ∧
      d.should_start_recording = false)
    (hroom : st0.asr_queue.length < st0.queue_capacity) :
    ∃ info : RecordingInfo,
      (runFrames ring st0 (fstart :: mids ++ [fstop])).asr_queue
        = st0.asr_queue ++ [info] ∧
      info.wav_data.frames
        = lastSamples (preRollNumSamples st0.sample_rate) ring
          ++ fstart.1.samples ++ mids.flatMap (fun p => p.1.samples) ∧
      info.samples
        = (lastSamples (preRollNumSamples st0.sample_rate) ring
          ++ fstart.1.samples ++ mids.flatMap (fun p => p.1.samples)).length ∧
      (runFrames ring st0 (fstart :: mids ++ [fstop])).current_recording
        = none := by
  obtain ⟨d0, hok0, hs0⟩ := hstart
  have h1 := callbackFrameStep_start ring st0 fstart.1 fstart.2 d0 hok0 hs0
  have hkeep := runFrames_keep ring mids
    (callbackFrameStep ring st0 fstart.1 fstart.2)
    (lastSamples (preRollNumSamples st0.sample_rate) ring ++ fstart.1.samples)
    h1.1 hmid
  obtain ⟨d1, hok1, hstop1, hns1⟩ := hstop
  have hroom' :
      (runFrames ring (callbackFrameStep ring st0 fstart.1 fstart.2)
        mids).asr_queue.length
      < (runFrames ring (callbackFrameStep ring st0 fstart.1 fstart.2)
        mids).queue_capacity := by
    rw [hkeep.2.1, h1.2.1, hkeep.2.2.2.2, h1.2.2.2.2]
    exact hroom
  have h2 := callbackFrameStep_stop ring
    (runFrames ring (callbackFrameStep ring st0 fstart.1 fstart.2) mids)
    fstop.1 fstop.2
    (lastSamples (preRollNumSamples st0.sample_rate) ring
      ++ fstart.1.samples ++ mids.flatMap (fun p => p.1.samples))
    d1 (by rw [hkeep.1]) hok1 hstop1 hns1 hroom'
  obtain ⟨info, hq, hframes, hsamples, hnone⟩ := h2
  refine ⟨info, ?_, hframes, hsamples, ?_⟩
  · rw [show fstart :: mids ++ [fstop] = (fstart :: mids) ++ [fstop] from rfl,
      runFrames_append]
    have : runFrames ring st0 (fstart :: mids)
        = runFrames ring (callbackFrameStep ring st0 fstart.1 fstart.2) mids :=
      runFrames_cons ring st0 fstart mids
    rw [this]
    show (callbackFrameStep ring _ fstop.1 fstop.2).asr_queue = _
    rw [hq, hkeep.2.1, h1.2.1]
  · rw [show fstart :: mids ++ [fstop] = (fstart :: mids) ++ [fstop] from rfl,
      runFrames_append, runFrames_cons]
    exact hnone

/-- A small concrete capture configuration for witnessing the payload
theorem: 1 kHz, 1 ms frames (one sample per frame), start after one voice
frame, stop after one silence frame. -/
def demoVadCfg : VADConfig :=
  { sample_rate := 1000, frame_duration := 1, aggressiveness := 2
    voice_threshold_ms := 1, silence_threshold_ms := 1 }

def demoCaptureState : CaptureState :=
  { sample_rate := 1000, channels := 1, max_blocking_ms := 50
    vad_cfg := demoVadCfg, vad := VADState.init
    current_recording := none, recording_start_time := none
    stats := CaptureStats.init, asr_queue := [], queue_capacity := 10 }

/-- Witness for `capture_utterance_payload`: ring holds `[9]`, a voice
frame `[5]` triggers the start, a voice frame `[6]` continues, a silence
frame `[0]` triggers the stop; the enqueued payload is `[9, 5, 6]` —
pre-roll, start frame, middle frame — without the stop frame. -/
theorem capture_utterance_payload_witness :
    ∃ info : RecordingInfo,
      (runFrames [9] demoCaptureState
          ((⟨[5], true⟩, (0 : ℚ)) :: [(⟨[6], true⟩, (0 : ℚ))]
            ++ [(⟨[0], false⟩, (0 : ℚ))])).asr_queue
        = demoCaptureState.asr_queue ++ [info] ∧
      info.wav_data.frames = [9, 5, 6] ∧
      info.samples = ([9, 5, 6] : List ℤ).length ∧
      (runFrames [9] demoCaptureState
          ((⟨[5], true⟩, (0 : ℚ)) :: [(⟨[6], true⟩, (0 : ℚ))]
            ++ [(⟨[0], false⟩, (0 : ℚ))])).current_recording = none := by
  have h := capture_utterance_payload [9] demoCaptureState
    (⟨[5], true⟩, 0) [(⟨[6], true⟩, 0)] (⟨[0], false⟩, 0)
    ⟨_, rfl, rfl⟩
    (by
      intro i hi
      cases i with
      | zero => exact ⟨_, rfl, rfl, rfl⟩
      | succ n =>
        exact absurd hi
          (by simp only [List.length_cons, List.length_nil]; omega))
    ⟨_, rfl, rfl, rfl⟩
    (by decide)
  exact h

end FluentAI
